import Mathlib

set_option maxRecDepth 8000

/-!
Verification development for the ai-reception-agent repository.

The development shallowly embeds the parts of the code the properties talk
about:

* `analyze_post` — the post-reply processing of `analyze_call`
  (src/agent.py): brace extraction on the model's reply text, JSON
  parsing, required-field completion and priority validation.  It is
  parametrised by the JSON parser (Python's `json.loads` is a library
  function); `json_loads` below is an executable model of `json.loads`
  restricted to the JSON fragment exercised here (strings, integers,
  booleans, null, objects; no escape sequences, no arrays), used to
  evaluate concrete instances.
* `save_call`, `get_all_calls`, `get_call_by_id`, `mask_phone` — the
  store operations (src/database.py), with the SQLite table modelled as
  an insertion-ordered list of rows and the wall clock passed explicitly.
* `process_save` — the save branch of `process_new_call`
  (src/streamlit_app.py).

Python strings are modelled as `List Char`; Python dicts (the parsed JSON
object) as insertion-ordered association lists with unique keys.
-/

/-- JSON values, as produced by Python's `json.loads` (arrays omitted:
they play no role in any property below and a reply using them simply
falls outside the object fragment). An object is an insertion-ordered
association list, as a Python dict is. -/
inductive Json where
  | str : String → Json
  | num : Int → Json
  | bool : Bool → Json
  | null : Json
  | obj : List (String × Json) → Json

/-- Dict lookup: `d[k]` / `k in d`, first (and only, keys being unique)
binding of `k`. -/
def lookup_kv (k : String) : List (String × Json) → Option Json
  | [] => none
  | (k', v) :: rest => if k' = k then some v else lookup_kv k rest

/-- Dict assignment `d[k] = v`: overwrite in place when the key exists,
append at the end otherwise — Python dict insertion-order semantics. -/
def set_kv (k : String) (v : Json) : List (String × Json) → List (String × Json)
  | [] => [(k, v)]
  | (k', v') :: rest => if k' = k then (k, v) :: rest else (k', v') :: set_kv k v rest

/-- `str.find(c)` (src/agent.py line 130): index of the first occurrence,
`none` standing for Python's `-1`. -/
def find_char (c : Char) : List Char → Option Nat
  | [] => none
  | a :: rest => if a = c then some 0 else (find_char c rest).map (· + 1)

/-- `str.rfind(c)` (src/agent.py line 131): index of the last occurrence,
`none` standing for Python's `-1`. -/
def rfind_char (c : Char) : List Char → Option Nat
  | [] => none
  | a :: rest =>
    match rfind_char c rest with
    | some k => some (k + 1)
    | none => if a = c then some 0 else none

/-- The reply-cleanup slice of `analyze_call` (src/agent.py lines
130-133): `start_idx = text.find('{')`, `end_idx = text.rfind('}') + 1`,
and `text[start_idx:end_idx]` when `start_idx >= 0 and end_idx >
start_idx`, the text unchanged otherwise. -/
def brace_extract (s : List Char) : List Char :=
  match find_char '{' s, rfind_char '}' s with
  | some i, some j => if i < j + 1 then (s.drop i).take (j + 1 - i) else s
  | _, _ => s

/-- The six required keys, in the order `analyze_call` checks them
(src/agent.py line 138). -/
def required_fields : List String :=
  ["caller_name", "phone", "department", "priority", "summary", "response"]

/-- One step of the field-completion loop (src/agent.py lines 139-141):
a required key absent from the dict is assigned the string `"Unknown"`. -/
def complete_step (acc : List (String × Json)) (f : String) : List (String × Json) :=
  if (lookup_kv f acc).isSome then acc else set_kv f (Json.str "Unknown") acc

/-- Field completion (src/agent.py lines 137-141): run `complete_step`
over the six required keys in order. -/
def complete_fields (kvs : List (String × Json)) : List (String × Json) :=
  required_fields.foldl complete_step kvs

/-- `result['priority'] in ['Low', 'Medium', 'High']` (src/agent.py line
144): Python `in` compares with `==`, so only the exact strings pass —
the comparison is case-sensitive. -/
def is_canon_priority : Json → Bool
  | Json.str s => s = "Low" || s = "Medium" || s = "High"
  | _ => false

/-- Exceptions raised by the post-reply processing of `analyze_call`:
`parse_failure` is the `json.JSONDecodeError` path ("Failed to parse
model response as JSON", re-wrapped by the outer handler into "Call
analysis failed"), `analysis_failure` any other error caught by the
outer handler (e.g. the `TypeError` from indexing a non-dict parse
result). -/
inductive AnalyzeError where
  | parse_failure : AnalyzeError
  | analysis_failure : AnalyzeError
deriving DecidableEq, Repr

/-- The post-reply processing of `analyze_call` (src/agent.py lines
128-153), parametrised by the JSON parser: brace extraction, parsing,
field completion, priority validation.  `Except.error` models the
exception paths: parsing failure raises (there is no fallback record in
the code), and a parse result that is not an object raises `TypeError`
at the first subscript, caught by the outer handler. -/
def analyze_post (json_parse : List Char → Option Json) (response_text : List Char) :
    Except AnalyzeError (List (String × Json)) :=
  let cleaned := brace_extract response_text
  match json_parse cleaned with
  | none => Except.error AnalyzeError.parse_failure
  | some (Json.obj kvs) =>
      let completed := complete_fields kvs
      match lookup_kv "priority" completed with
      | none => Except.error AnalyzeError.analysis_failure
      | some v =>
          Except.ok
            (if is_canon_priority v then completed
             else set_kv "priority" (Json.str "Medium") completed)
  | some _ => Except.error AnalyzeError.analysis_failure

/-- Priority field of an extraction outcome, for stating concrete
evaluations: the looked-up `priority` on success, `none` on an
exception. -/
def extracted_priority (r : Except AnalyzeError (List (String × Json))) : Option Json :=
  match r with
  | Except.ok out => lookup_kv "priority" out
  | Except.error _ => none

/-! ### An executable model of `json.loads` (fragment)

Used only to evaluate `analyze_post` at concrete replies; every generic
theorem below is parametric in the parser. -/

/-- Skip JSON whitespace. -/
def skip_ws : List Char → List Char
  | [] => []
  | c :: cs => if c = ' ' || c = '\n' || c = '\t' || c = '\r' then skip_ws cs else c :: cs

/-- Body of a JSON string literal (opening quote already consumed); no
escape sequences in the fragment. -/
def str_lit_aux : List Char → List Char → Option (String × List Char)
  | [], _ => none
  | c :: cs, acc =>
    if c = '"' then some (String.mk acc.reverse, cs)
    else if c = '\x5c' then none
    else str_lit_aux cs (c :: acc)

/-- Longest digit run at the front. -/
def digits_aux : List Char → List Char → (List Char × List Char)
  | [], acc => (acc.reverse, [])
  | c :: cs, acc => if c.isDigit then digits_aux cs (c :: acc) else (acc.reverse, c :: cs)

/-- Digit run to a natural number. -/
def digits_to_nat (ds : List Char) : Nat :=
  ds.foldl (fun n c => 10 * n + (c.toNat - 48)) 0

mutual

/-- Parse one JSON value (fuel-bounded recursion). -/
def parse_value : Nat → List Char → Option (Json × List Char)
  | 0, _ => none
  | fuel + 1, input =>
    match skip_ws input with
    | [] => none
    | c :: cs =>
      if c = '"' then
        (str_lit_aux cs []).map (fun p => (Json.str p.1, p.2))
      else if c = '{' then
        match skip_ws cs with
        | '}' :: rest => some (Json.obj [], rest)
        | rest =>
          match parse_members fuel rest with
          | some (kvs, rest') =>
            some (Json.obj (kvs.foldl (fun acc p => set_kv p.1 p.2 acc) []), rest')
          | none => none
      else if c = 't' then
        match cs with
        | 'r' :: 'u' :: 'e' :: rest => some (Json.bool true, rest)
        | _ => none
      else if c = 'f' then
        match cs with
        | 'a' :: 'l' :: 's' :: 'e' :: rest => some (Json.bool false, rest)
        | _ => none
      else if c = 'n' then
        match cs with
        | 'u' :: 'l' :: 'l' :: rest => some (Json.null, rest)
        | _ => none
      else if c = '-' then
        match digits_aux cs [] with
        | ([], _) => none
        | (ds, rest) => some (Json.num (-(digits_to_nat ds : Int)), rest)
      else if c.isDigit then
        match digits_aux (c :: cs) [] with
        | ([], _) => none
        | (ds, rest) => some (Json.num (digits_to_nat ds), rest)
      else none

/-- Parse the members of a JSON object after its `{` (fuel-bounded),
returned as the raw key/value sequence; the object constructor above
folds `set_kv` over it left to right, so duplicate keys overwrite
earlier ones, as in a Python dict. -/
def parse_members : Nat → List Char → Option (List (String × Json) × List Char)
  | 0, _ => none
  | fuel + 1, input =>
    match skip_ws input with
    | '"' :: cs =>
      match str_lit_aux cs [] with
      | none => none
      | some (key, rest) =>
        match skip_ws rest with
        | ':' :: rest1 =>
          match parse_value fuel rest1 with
          | none => none
          | some (v, rest2) =>
            match skip_ws rest2 with
            | ',' :: rest3 =>
              match parse_members fuel rest3 with
              | none => none
              | some (kvs, r) => some ((key, v) :: kvs, r)
            | '}' :: rest4 => some ([(key, v)], rest4)
            | _ => none
        | _ => none
    | _ => none

end

/-- Model of Python's `json.loads` on the fragment above: a parse
succeeds only when the whole input (up to trailing whitespace) is one
JSON value. -/
def json_loads (s : List Char) : Option Json :=
  match parse_value (s.length + 1) s with
  | some (v, rest) => if skip_ws rest = [] then some v else none
  | none => none

/-! ### Fenced code blocks (for the fence-transparency property) -/

/-- The backtick character. -/
def backquote : Char := '\x60'

/-- Opening fence: three backticks, an optional language tag, a newline. -/
def fence_open (tag : List Char) : List Char :=
  backquote :: backquote :: backquote :: tag ++ ['\n']

/-- Closing fence: a newline and three backticks. -/
def fence_close : List Char :=
  '\n' :: backquote :: backquote :: backquote :: []

/-- A reply wrapped in a fenced code block with the given language tag. -/
def fence_wrap (tag s : List Char) : List Char :=
  fence_open tag ++ s ++ fence_close

/-! ### The call record store (src/models.py, src/database.py)

The SQLite table `calls` is modelled as the list of its rows in rowid
(insertion) order; `id` and `timestamp` are `Option`-valued because the
columns are generated (`id` autoincrement, `timestamp` defaulted at
insert), and the wall clock is passed to `save_call` explicitly. -/

/-- A row of the `calls` table (src/models.py lines 7-21). -/
structure Call where
  id : Option Nat
  timestamp : Option Nat
  caller_name : Option String
  phone : Option String
  department : Option String
  priority : String
  summary : String
  transcript : String
  response : Option String
deriving DecidableEq, Repr

/-- The database: rows in rowid order plus the next autoincrement id. -/
structure DB where
  calls : List Call
  next_id : Nat
deriving DecidableEq, Repr

/-- The empty database, as created by `init_db`. -/
def init_db : DB := { calls := [], next_id := 1 }

/-- `save_call` (src/database.py lines 31-69): construct a `Call` from
the arguments verbatim, insert it (the engine assigns `id` and
`timestamp`), commit, and return the refreshed record alongside the new
database state.  `now` is the clock value SQLAlchemy's
`default=datetime.utcnow` reads at insert time. -/
def save_call (db : DB) (now : Nat) (transcript summary : String)
    (caller_name phone department : Option String)
    (priority : String) (response : Option String) : DB × Call :=
  let db_call : Call :=
    { id := some db.next_id
      timestamp := some now
      caller_name := caller_name
      phone := phone
      department := department
      priority := priority
      summary := summary
      transcript := transcript
      response := response }
  ({ calls := db.calls ++ [db_call], next_id := db.next_id + 1 }, db_call)

/-- Timestamp as the sort key (`timestamp` is `nullable=False`, so every
stored row has one; `getD 0` is irrelevant on real rows). -/
def ts_of (c : Call) : Nat := c.timestamp.getD 0

/-- Insert a row into a list already sorted by descending timestamp,
before the first row whose timestamp is not larger: rows scanned earlier
stay ahead of later rows with an equal timestamp. -/
def insert_desc (c : Call) : List Call → List Call
  | [] => [c]
  | x :: xs => if ts_of x ≤ ts_of c then c :: x :: xs else x :: insert_desc c xs

/-- `ORDER BY timestamp DESC` over the table scan: a stable descending
sort.  The query (src/database.py line 83) names no secondary key, so
ties keep scan (rowid) order. -/
def sort_ts_desc : List Call → List Call
  | [] => []
  | x :: xs => insert_desc x (sort_ts_desc xs)

/-- `get_all_calls` (src/database.py lines 71-83):
`query(Call).order_by(Call.timestamp.desc()).offset(skip).limit(limit)`.
The Python defaults are `skip = 0`, `limit = 100`. -/
def get_all_calls (db : DB) (skip : Nat) (limit : Nat) : List Call :=
  ((sort_ts_desc db.calls).drop skip).take limit

/-- First row satisfying a predicate in scan order (`query(...).first()`). -/
def find_first (p : Call → Bool) : List Call → Option Call
  | [] => none
  | x :: xs => if p x then some x else find_first p xs

/-- `get_call_by_id` (src/database.py lines 85-96):
`query(Call).filter(Call.id == call_id).first()`. -/
def get_call_by_id (db : DB) (call_id : Nat) : Option Call :=
  find_first (fun c => c.id == some call_id) db.calls

/-- `mask_phone` (src/database.py lines 98-112).  `if not phone` is true
for `None` and for the empty string alike; otherwise strings of length
at most 4 are returned unchanged, longer ones as their first 4
characters followed by one `'*'` per remaining character. -/
def mask_phone (phone : Option String) : String :=
  match phone with
  | none => "N/A"
  | some p =>
    if p.length = 0 then "N/A"
    else if p.length ≤ 4 then p
    else (p.toList.take 4).asString ++ (List.replicate (p.length - 4) '*').asString

/-! ### The save branch of the presentation workflow (src/streamlit_app.py) -/

/-- Outcome of submitting the save form: the resulting database state,
the saved record when one was persisted, and the error message shown
when the submission was rejected. -/
structure SubmitResult where
  db : DB
  saved : Option Call
  error : Option String
deriving DecidableEq, Repr

/-- The `field or None` coercions of `process_new_call` (src/streamlit_app.py
lines 180-184): an empty form field is stored as NULL. -/
def str_or_none (s : String) : Option String :=
  if s = "" then none else some s

/-- The submit branch of `process_new_call` (src/streamlit_app.py lines
170-185): `if not summary`, reject with "Please enter a summary" without
touching the store; otherwise call `save_call` with the form values. -/
def process_save (db : DB) (now : Nat)
    (transcript summary caller_name phone department priority response : String) :
    SubmitResult :=
  if summary = "" then
    { db := db, saved := none, error := some "Please enter a summary" }
  else
    let r := save_call db now transcript summary
      (str_or_none caller_name) (str_or_none phone) (str_or_none department)
      priority (str_or_none response)
    { db := r.1, saved := some r.2, error := none }

/-! ### Concrete scenario inputs -/

/-- Three successive inserts (A, then B, then C) into a fresh store,
with the given timestamps, transcripts and summaries; returns the final
database and the three inserted records. -/
def insert_three (t1 t2 t3 : Nat) (tr1 su1 tr2 su2 tr3 su3 : String) :
    DB × Call × Call × Call :=
  let s1 := save_call init_db t1 tr1 su1 none none none "Medium" none
  let s2 := save_call s1.1 t2 tr2 su2 none none none "Medium" none
  let s3 := save_call s2.1 t3 tr3 su3 none none none "Medium" none
  (s3.1, s1.2, s2.2, s3.2)

/-- A store holding two records saved with the same timestamp. -/
def tie_db : DB :=
  (save_call (save_call init_db 5 "first call" "first" none none none "Medium" none).1
    5 "second call" "second" none none none "Medium" none).1

/-- A model reply that is not JSON, with or without brace extraction. -/
def garbled_reply : List Char :=
  "Sorry, I can only describe the call in prose.".toList

/-- The synthetic fallback record the specification promises for the
garbled reply above with transcript "Caller asks about an invoice."
(shorter than 500 characters, so `summary` is the whole transcript). -/
def claim_fallback_record : List (String × Json) :=
  [("caller_name", Json.str ""), ("phone", Json.str ""), ("department", Json.str ""),
   ("priority", Json.str "Medium"),
   ("summary", Json.str "Caller asks about an invoice."),
   ("response", Json.str "Sorry, I can only describe the call in prose.")]

/-- A reply whose `priority` is `"high"` (lowercase), all six keys
present. -/
def reply_priority_lowercase : List Char :=
  ("\x7b\"caller_name\": \"Alice\", \"phone\": \"1234567890\", \"department\": \"Support\", "
    ++ "\"priority\": \"high\", \"summary\": \"Printer broken.\", "
    ++ "\"response\": \"Route to support.\"\x7d").toList

/-- A reply whose `priority` is `"LOW"` (uppercase). -/
def reply_priority_upper : List Char := "\x7b\"priority\": \"LOW\"\x7d".toList

/-- A reply missing five of the six required keys. -/
def reply_missing_fields : List Char := "\x7b\"phone\": \"123\"\x7d".toList

/-- Members of a complete, canonical reply object (for the identity
property): all six keys, `priority` exactly `"High"`. -/
def complete_reply_mid : List Char :=
  ("\"caller_name\": \"Bob\", \"phone\": \"555\", \"department\": \"Sales\", "
    ++ "\"priority\": \"High\", \"summary\": \"Asks for pricing.\", "
    ++ "\"response\": \"Forward to sales.\"").toList

/-- The parsed form of `complete_reply_mid`. -/
def complete_reply_kvs : List (String × Json) :=
  [("caller_name", Json.str "Bob"), ("phone", Json.str "555"),
   ("department", Json.str "Sales"), ("priority", Json.str "High"),
   ("summary", Json.str "Asks for pricing."), ("response", Json.str "Forward to sales.")]

/-- Members of a small object (for the fence property). -/
def fence_demo_mid : List Char := "\"priority\": \"High\"".toList

/-! ### Lemmas about brace extraction -/

theorem find_char_append_cons (c : Char) (pre rest : List Char) (h : c ∉ pre) :
    find_char c (pre ++ c :: rest) = some pre.length := by
  induction pre with
  | nil => simp [find_char]
  | cons a pre ih =>
      have ha : a ≠ c := fun e => h (by simp [e])
      have hpre : c ∉ pre := fun hm => h (List.mem_cons_of_mem a hm)
      simp [find_char, if_neg ha, ih hpre]

theorem rfind_char_eq_none (c : Char) (l : List Char) (h : c ∉ l) :
    rfind_char c l = none := by
  induction l with
  | nil => rfl
  | cons a l ih =>
      have ha : a ≠ c := fun e => h (by simp [e])
      have hl : c ∉ l := fun hm => h (List.mem_cons_of_mem a hm)
      simp [rfind_char, ih hl, if_neg ha]

theorem rfind_char_append_cons (c : Char) (init suf : List Char) (h : c ∉ suf) :
    rfind_char c (init ++ c :: suf) = some init.length := by
  induction init with
  | nil => simp [rfind_char, rfind_char_eq_none c suf h]
  | cons a init ih => simp [rfind_char, ih]

/-- The central fact about the cleanup slice: any text that is a JSON
object body surrounded by brace-free decoration (code fences, language
tags, whitespace, prose) is cut back to exactly the object body. -/
theorem brace_extract_sandwich (pre mid suf : List Char)
    (hpre : '{' ∉ pre) (hsuf : '}' ∉ suf) :
    brace_extract (pre ++ ('{' :: mid ++ ['}']) ++ suf) = '{' :: mid ++ ['}'] := by
  have hshape1 : pre ++ ('{' :: mid ++ ['}']) ++ suf = pre ++ '{' :: (mid ++ '}' :: suf) := by
    simp
  have hshape2 : pre ++ ('{' :: mid ++ ['}']) ++ suf = (pre ++ '{' :: mid) ++ '}' :: suf := by
    simp
  have hf : find_char '{' (pre ++ ('{' :: mid ++ ['}']) ++ suf) = some pre.length := by
    rw [hshape1]; exact find_char_append_cons '{' pre _ hpre
  have hr : rfind_char '}' (pre ++ ('{' :: mid ++ ['}']) ++ suf)
      = some (pre ++ '{' :: mid).length := by
    rw [hshape2]; exact rfind_char_append_cons '}' _ suf hsuf
  have hlen : (pre ++ '{' :: mid).length = pre.length + mid.length + 1 := by
    simp; omega
  have hlt : pre.length < (pre ++ '{' :: mid).length + 1 := by omega
  rw [brace_extract, hf, hr]
  simp only [if_pos hlt]
  have hdrop : (pre ++ ('{' :: mid ++ ['}']) ++ suf).drop pre.length
      = ('{' :: mid ++ ['}']) ++ suf := by
    rw [List.append_assoc, List.drop_left]
  rw [hdrop]
  have hidx : (pre ++ '{' :: mid).length + 1 - pre.length = ('{' :: mid ++ ['}']).length := by
    simp; omega
  rw [hidx, List.take_left]

/-- Special case: a bare JSON object body passes through the cleanup
unchanged. -/
theorem brace_extract_object (mid : List Char) :
    brace_extract ('{' :: mid ++ ['}']) = '{' :: mid ++ ['}'] := by
  have := brace_extract_sandwich [] mid [] (by simp) (by simp)
  simpa using this

/-! ### Lemmas about dict operations and field completion -/

theorem lookup_set_self (k : String) (v : Json) (d : List (String × Json)) :
    lookup_kv k (set_kv k v d) = some v := by
  induction d with
  | nil => simp [set_kv, lookup_kv]
  | cons p d ih =>
      by_cases h : p.1 = k
      · simp [set_kv, h, lookup_kv]
      · simp [set_kv, h, lookup_kv, ih]

theorem lookup_set_other (g k : String) (v : Json) (d : List (String × Json)) (h : g ≠ k) :
    lookup_kv g (set_kv k v d) = lookup_kv g d := by
  have hk : ¬ (k = g) := fun e => h e.symm
  induction d with
  | nil => simp [set_kv, lookup_kv, hk]
  | cons p d ih =>
      by_cases hp : p.1 = k
      · simp [set_kv, hp, lookup_kv, hk]
      · simp [set_kv, hp, lookup_kv, ih]

theorem complete_step_preserves (g : String) (d : List (String × Json)) (f : String)
    (h : (lookup_kv g d).isSome) :
    lookup_kv g (complete_step d f) = lookup_kv g d := by
  unfold complete_step
  by_cases hf : (lookup_kv f d).isSome
  · simp [hf]
  · have hgf : g ≠ f := by
      intro e; subst e; exact hf h
    simp [hf, lookup_set_other g f _ d hgf]

theorem foldl_complete_preserves (fs : List String) (g : String) (d : List (String × Json))
    (h : (lookup_kv g d).isSome) :
    lookup_kv g (fs.foldl complete_step d) = lookup_kv g d := by
  induction fs generalizing d with
  | nil => rfl
  | cons f fs ih =>
      have hstep := complete_step_preserves g d f h
      have hsome : (lookup_kv g (complete_step d f)).isSome := by rw [hstep]; exact h
      simp only [List.foldl_cons]
      rw [ih (complete_step d f) hsome, hstep]

theorem foldl_complete_isSome_mono (fs : List String) (g : String) (d : List (String × Json))
    (h : (lookup_kv g d).isSome) :
    (lookup_kv g (fs.foldl complete_step d)).isSome := by
  rw [foldl_complete_preserves fs g d h]; exact h

theorem complete_step_self_isSome (g : String) (d : List (String × Json)) :
    (lookup_kv g (complete_step d g)).isSome := by
  unfold complete_step
  by_cases hg : (lookup_kv g d).isSome
  · simp [hg]
  · simp [hg, lookup_set_self]

theorem foldl_complete_covers (fs : List String) (g : String) (d : List (String × Json)) :
    g ∈ fs → (lookup_kv g (fs.foldl complete_step d)).isSome := by
  induction fs generalizing d with
  | nil => intro h; cases h
  | cons f fs ih =>
      intro h
      rcases List.mem_cons.mp h with he | hm
      · subst he
        simp only [List.foldl_cons]
        exact foldl_complete_isSome_mono fs g _ (complete_step_self_isSome g d)
      · simp only [List.foldl_cons]
        exact ih _ hm

theorem foldl_complete_fills_missing (fs : List String) (g : String)
    (d : List (String × Json)) :
    g ∈ fs → lookup_kv g d = none →
    lookup_kv g (fs.foldl complete_step d) = some (Json.str "Unknown") := by
  induction fs generalizing d with
  | nil => intro hg; cases hg
  | cons f fs ih =>
      intro hg hmiss
      by_cases he : f = g
      · subst he
        have hset : lookup_kv f (complete_step d f) = some (Json.str "Unknown") := by
          unfold complete_step
          simp [hmiss, lookup_set_self]
        simp only [List.foldl_cons]
        rw [foldl_complete_preserves fs f _ (by simp [hset]), hset]
      · have hm : g ∈ fs := by
          rcases List.mem_cons.mp hg with he' | hm
          · exact absurd he'.symm he
          · exact hm
        have hgf : g ≠ f := fun e => he e.symm
        have hstill : lookup_kv g (complete_step d f) = none := by
          unfold complete_step
          by_cases hf : (lookup_kv f d).isSome
          · simpa [hf] using hmiss
          · simpa [hf, lookup_set_other g f _ d hgf] using hmiss
        simp only [List.foldl_cons]
        exact ih _ hm hstill

theorem foldl_complete_id (fs : List String) (d : List (String × Json))
    (h : ∀ f ∈ fs, (lookup_kv f d).isSome) :
    fs.foldl complete_step d = d := by
  induction fs with
  | nil => rfl
  | cons f fs ih =>
      have hf : (lookup_kv f d).isSome := h f (by simp)
      have hstep : complete_step d f = d := by simp [complete_step, hf]
      simp only [List.foldl_cons, hstep]
      exact ih (fun g hg => h g (by simp [hg]))

/-! ### Lemmas about the store's sort and scan -/

theorem mem_insert_desc (c x : Call) (l : List Call) :
    x ∈ insert_desc c l → x = c ∨ x ∈ l := by
  induction l with
  | nil =>
      intro h
      simp only [insert_desc, List.mem_singleton] at h
      exact Or.inl h
  | cons a l ih =>
      intro h
      by_cases hc : ts_of a ≤ ts_of c
      · rw [insert_desc, if_pos hc] at h
        exact List.mem_cons.mp h
      · rw [insert_desc, if_neg hc] at h
        rcases List.mem_cons.mp h with h | h
        · exact Or.inr (by simp [h])
        · rcases ih h with h' | h'
          · exact Or.inl h'
          · exact Or.inr (List.mem_cons_of_mem a h')

theorem pairwise_insert_desc (c : Call) (l : List Call)
    (h : l.Pairwise (fun a b => ts_of b ≤ ts_of a)) :
    (insert_desc c l).Pairwise (fun a b => ts_of b ≤ ts_of a) := by
  induction l with
  | nil => simp [insert_desc]
  | cons a l ih =>
      rcases List.pairwise_cons.mp h with ⟨ha, hl⟩
      by_cases hc : ts_of a ≤ ts_of c
      · rw [insert_desc, if_pos hc]
        refine List.pairwise_cons.mpr ⟨?_, h⟩
        intro y hy
        rcases List.mem_cons.mp hy with he | hm
        · subst he; exact hc
        · exact Nat.le_trans (ha y hm) hc
      · rw [insert_desc, if_neg hc]
        refine List.pairwise_cons.mpr ⟨?_, ih hl⟩
        intro y hy
        rcases mem_insert_desc c y l hy with he | hm
        · subst he; exact Nat.le_of_lt (Nat.not_le.mp hc)
        · exact ha y hm

theorem pairwise_sort_ts_desc (l : List Call) :
    (sort_ts_desc l).Pairwise (fun a b => ts_of b ≤ ts_of a) := by
  induction l with
  | nil => simp [sort_ts_desc]
  | cons a l ih => exact pairwise_insert_desc a _ ih

theorem find_first_append_of_none (p : Call → Bool) (l1 l2 : List Call)
    (h : ∀ c ∈ l1, p c = false) :
    find_first p (l1 ++ l2) = find_first p l2 := by
  induction l1 with
  | nil => rfl
  | cons a l ih =>
      simp only [List.cons_append, find_first, h a (by simp), Bool.false_eq_true, if_false]
      exact ih (fun c hc => h c (by simp [hc]))

/-! ### Claim C1 — behaviour on an unparseable reply -/

/-- Claim C1 as stated is false: at the concrete garbled reply,
`analyze_call`'s post-reply processing raises the parse exception rather
than returning the synthetic fallback record the specification
describes. -/
theorem garbled_reply_raises_cex :
    analyze_post json_loads garbled_reply = Except.error AnalyzeError.parse_failure
    ∧ Except.error AnalyzeError.parse_failure ≠ Except.ok claim_fallback_record :=
  ⟨rfl, fun h => Except.noConfusion h⟩

/-- Claim C1, amended: for every reply whose brace-extracted text cannot
be parsed as a JSON object, `analyze_call` raises an exception — the
wrapped `JSONDecodeError` when the text is not JSON at all, the wrapped
`TypeError` when it parses to a non-object — and returns no fallback
record. -/
theorem analyze_raises_on_unparseable_reply (json_parse : List Char → Option Json) :
    (∀ reply : List Char, json_parse (brace_extract reply) = none →
        analyze_post json_parse reply = Except.error AnalyzeError.parse_failure)
    ∧ (∀ (reply : List Char) (j : Json), json_parse (brace_extract reply) = some j →
        (∀ kvs, j ≠ Json.obj kvs) →
        analyze_post json_parse reply = Except.error AnalyzeError.analysis_failure) := by
  constructor
  · intro reply h
    simp only [analyze_post, h]
  · intro reply j h hno
    cases j with
    | str s => simp [analyze_post, h]
    | num n => simp [analyze_post, h]
    | bool b => simp [analyze_post, h]
    | null => simp [analyze_post, h]
    | obj kvs => exact absurd rfl (hno kvs)

/-- Witness for C1's amended theorem at a concrete unparseable reply. -/
theorem analyze_raises_on_unparseable_reply_witness :
    analyze_post json_loads "The caller hung up without speaking.".toList
      = Except.error AnalyzeError.parse_failure :=
  (analyze_raises_on_unparseable_reply json_loads).1
    "The caller hung up without speaking.".toList rfl

/-! ### Claim C2 — priority validation -/

/-- Claim C2 as stated is false: on a parsed reply with `priority` equal
to `"high"`, the code yields `"Medium"`, not the re-capitalised
`"High"` the specification promises. -/
theorem priority_lowercase_cex :
    extracted_priority (analyze_post json_loads reply_priority_lowercase)
      = some (Json.str "Medium")
    ∧ extracted_priority (analyze_post json_loads reply_priority_lowercase)
      ≠ some (Json.str "High") := by
  refine ⟨rfl, fun h => ?_⟩
  have h' : some (Json.str "Medium") = some (Json.str "High") := h
  have := Json.str.inj (Option.some.inj h')
  exact absurd this (by decide)

/-- Claim C2, amended: the priority check of `analyze_call` is
case-sensitive and performs no re-capitalisation: a parsed `priority`
equal to exactly `"Low"`, `"Medium"` or `"High"` is kept verbatim, and
every other value — including `"high"`, `"LOW"`, `"Medium "` — is
replaced by `"Medium"`.  The check runs on every successfully parsed
reply. -/
theorem priority_validation_case_sensitive
    (json_parse : List Char → Option Json) (reply : List Char)
    (kvs : List (String × Json)) (v : Json)
    (hparse : json_parse (brace_extract reply) = some (Json.obj kvs))
    (hpv : lookup_kv "priority" kvs = some v) :
    ∃ out, analyze_post json_parse reply = Except.ok out
      ∧ lookup_kv "priority" out
          = some (if is_canon_priority v then v else Json.str "Medium") := by
  have hvc : lookup_kv "priority" (complete_fields kvs) = some v :=
    (foldl_complete_preserves required_fields "priority" kvs (by simp [hpv])).trans hpv
  by_cases hcanon : is_canon_priority v
  · refine ⟨complete_fields kvs, ?_, ?_⟩
    · simp only [analyze_post, hparse, hvc, hcanon, if_true]
    · rw [hvc, if_pos hcanon]
  · refine ⟨set_kv "priority" (Json.str "Medium") (complete_fields kvs), ?_, ?_⟩
    · simp only [analyze_post, hparse, hvc]
      simp [hcanon]
    · rw [lookup_set_self, if_neg hcanon]

/-- Witness for C2's amended theorem: the uppercase `"LOW"` is not
canonical, so it normalises to `"Medium"`. -/
theorem priority_validation_case_sensitive_witness :
    ∃ out, analyze_post json_loads reply_priority_upper = Except.ok out
      ∧ lookup_kv "priority" out
          = some (if is_canon_priority (Json.str "LOW") then Json.str "LOW"
                  else Json.str "Medium") :=
  priority_validation_case_sensitive json_loads reply_priority_upper
    [("priority", Json.str "LOW")] (Json.str "LOW") rfl rfl

/-! ### Claim C3 — fence wrapping is transparent -/

/-- Claim C3, confirmed: the code strips no fences explicitly, but the
first-`{`-to-last-`}` extraction makes a fenced reply (any brace-free
language tag, so in particular "json" in any capitalisation) yield
exactly the result of the bare reply. -/
theorem fence_wrapping_transparent
    (json_parse : List Char → Option Json) (tag mid : List Char)
    (kvs : List (String × Json))
    (htag : '{' ∉ tag)
    (_hparse : json_parse ('{' :: mid ++ ['}']) = some (Json.obj kvs)) :
    analyze_post json_parse (fence_wrap tag ('{' :: mid ++ ['}']))
      = analyze_post json_parse ('{' :: mid ++ ['}']) := by
  have hpre : '{' ∉ fence_open tag := by
    intro h
    have h1 : ('{' : Char) ≠ backquote := by decide
    have h2 : ('{' : Char) = '\n' → False := by decide
    unfold fence_open at h
    rcases List.mem_cons.mp h with h | h
    · exact h1 h
    rcases List.mem_cons.mp h with h | h
    · exact h1 h
    rcases List.mem_cons.mp h with h | h
    · exact h1 h
    rcases List.mem_append.mp h with h | h
    · exact htag h
    · exact h2 (List.mem_singleton.mp h)
  have hsuf : '}' ∉ fence_close := by decide
  have h1 : brace_extract (fence_wrap tag ('{' :: mid ++ ['}'])) = '{' :: mid ++ ['}'] :=
    brace_extract_sandwich (fence_open tag) mid fence_close hpre hsuf
  simp only [analyze_post, h1, brace_extract_object]

/-- Witness for C3 at a concrete fenced object with tag "json". -/
theorem fence_wrapping_transparent_witness :
    analyze_post json_loads (fence_wrap "json".toList ('{' :: fence_demo_mid ++ ['}']))
      = analyze_post json_loads ('{' :: fence_demo_mid ++ ['}']) :=
  fence_wrapping_transparent json_loads "json".toList fence_demo_mid
    [("priority", Json.str "High")] (by decide) rfl

/-! ### Claim C4 — missing required keys are completed -/

/-- Claim C4, confirmed: whenever the cleaned reply parses as a JSON
object, extraction succeeds and returns a record with all six required
keys present; a key the reply lacked carries the fixed placeholder
`"Unknown"` — except `priority`, whose placeholder is then normalised to
the fixed `"Medium"` by the subsequent priority check. -/
theorem missing_fields_completed
    (json_parse : List Char → Option Json) (reply : List Char)
    (kvs : List (String × Json))
    (hparse : json_parse (brace_extract reply) = some (Json.obj kvs)) :
    ∃ out, analyze_post json_parse reply = Except.ok out
      ∧ (∀ f ∈ required_fields, (lookup_kv f out).isSome)
      ∧ (∀ f ∈ required_fields, f ≠ "priority" → lookup_kv f kvs = none →
          lookup_kv f out = some (Json.str "Unknown"))
      ∧ (lookup_kv "priority" kvs = none →
          lookup_kv "priority" out = some (Json.str "Medium")) := by
  have hprio_mem : "priority" ∈ required_fields := by simp [required_fields]
  have hsome : (lookup_kv "priority" (complete_fields kvs)).isSome :=
    foldl_complete_covers required_fields "priority" kvs hprio_mem
  rcases Option.isSome_iff_exists.mp hsome with ⟨v, hv⟩
  by_cases hcanon : is_canon_priority v
  · refine ⟨complete_fields kvs, ?_, ?_, ?_, ?_⟩
    · simp only [analyze_post, hparse, hv, hcanon, if_true]
    · intro f hf
      exact foldl_complete_covers required_fields f kvs hf
    · intro f hf _ hmiss
      exact foldl_complete_fills_missing required_fields f kvs hf hmiss
    · intro hmiss
      exfalso
      have hunk : lookup_kv "priority" (complete_fields kvs) = some (Json.str "Unknown") :=
        foldl_complete_fills_missing required_fields "priority" kvs hprio_mem hmiss
      rw [hv] at hunk
      cases Option.some.inj hunk
      exact absurd hcanon (by decide)
  · refine ⟨set_kv "priority" (Json.str "Medium") (complete_fields kvs), ?_, ?_, ?_, ?_⟩
    · simp only [analyze_post, hparse, hv]
      simp [hcanon]
    · intro f hf
      by_cases hfp : f = "priority"
      · subst hfp; simp [lookup_set_self]
      · rw [lookup_set_other f "priority" _ _ hfp]
        exact foldl_complete_covers required_fields f kvs hf
    · intro f hf hne hmiss
      rw [lookup_set_other f "priority" _ _ hne]
      exact foldl_complete_fills_missing required_fields f kvs hf hmiss
    · intro _
      simp [lookup_set_self]

/-- Witness for C4 at a reply holding only `phone`. -/
theorem missing_fields_completed_witness :
    ∃ out, analyze_post json_loads reply_missing_fields = Except.ok out
      ∧ (∀ f ∈ required_fields, (lookup_kv f out).isSome)
      ∧ (∀ f ∈ required_fields, f ≠ "priority" →
          lookup_kv f [("phone", Json.str "123")] = none →
          lookup_kv f out = some (Json.str "Unknown"))
      ∧ (lookup_kv "priority" [("phone", Json.str "123")] = none →
          lookup_kv "priority" out = some (Json.str "Medium")) :=
  missing_fields_completed json_loads reply_missing_fields
    [("phone", Json.str "123")] rfl

/-! ### Claim C5 — complete canonical replies pass through unchanged -/

/-- Claim C5, confirmed: a reply that is a JSON object with all six
required keys and `priority` already exactly one of `Low`, `Medium`,
`High` is returned by the extraction exactly as parsed, nothing added,
nothing rewritten. -/
theorem complete_reply_unchanged
    (json_parse : List Char → Option Json) (mid : List Char)
    (kvs : List (String × Json)) (v : Json)
    (hparse : json_parse ('{' :: mid ++ ['}']) = some (Json.obj kvs))
    (hall : ∀ f ∈ required_fields, (lookup_kv f kvs).isSome)
    (hpv : lookup_kv "priority" kvs = some v)
    (hcanon : v = Json.str "Low" ∨ v = Json.str "Medium" ∨ v = Json.str "High") :
    analyze_post json_parse ('{' :: mid ++ ['}']) = Except.ok kvs := by
  have hid : complete_fields kvs = kvs := foldl_complete_id required_fields kvs hall
  have hcanonb : is_canon_priority v = true := by
    rcases hcanon with h | h | h <;> subst h <;> rfl
  simp only [analyze_post, brace_extract_object, hparse, complete_fields] at *
  simp only [hid, hpv, hcanonb, if_true]

/-- Witness for C5 at a complete reply with `priority = "High"`. -/
theorem complete_reply_unchanged_witness :
    analyze_post json_loads ('{' :: complete_reply_mid ++ ['}'])
      = Except.ok complete_reply_kvs :=
  complete_reply_unchanged json_loads complete_reply_mid complete_reply_kvs
    (Json.str "High") rfl (by decide) rfl (Or.inr (Or.inr rfl))

/-! ### Claim C6 — listing order -/

/-- Claim C6 as stated is false in its tie-break clause: two records
saved with the same timestamp come back in ascending id (scan) order,
not descending. -/
theorem equal_timestamp_order_cex :
    (get_all_calls tie_db 0 100).map (fun c => c.id) = [some 1, some 2]
    ∧ ([some 1, some 2] : List (Option Nat)) ≠ [some 2, some 1] :=
  ⟨rfl, by decide⟩

/-- Claim C6, amended: `get_all_calls` returns records ordered
newest-first by timestamp for every store state and offset/limit, and
inserting A then B then C with strictly increasing timestamps lists
them as C, B, A; but the query applies no id tie-break — records with
equal timestamps keep ascending (insertion) order in the model, the
SQL carrying no secondary sort key at all. -/
theorem get_all_calls_newest_first :
    (∀ (db : DB) (skip limit : Nat),
        (get_all_calls db skip limit).Pairwise (fun a b => ts_of b ≤ ts_of a))
    ∧ (∀ (t1 t2 t3 : Nat) (tr1 su1 tr2 su2 tr3 su3 : String),
        t1 < t2 → t2 < t3 →
        get_all_calls (insert_three t1 t2 t3 tr1 su1 tr2 su2 tr3 su3).1 0 100
          = [(insert_three t1 t2 t3 tr1 su1 tr2 su2 tr3 su3).2.2.2,
             (insert_three t1 t2 t3 tr1 su1 tr2 su2 tr3 su3).2.2.1,
             (insert_three t1 t2 t3 tr1 su1 tr2 su2 tr3 su3).2.1]) := by
  constructor
  · intro db skip limit
    exact ((pairwise_sort_ts_desc db.calls).sublist
      (List.drop_sublist _ _)).sublist (List.take_sublist _ _)
  · intro t1 t2 t3 tr1 su1 tr2 su2 tr3 su3 h12 h23
    have h21 : ¬ (t2 ≤ t1) := by omega
    have h31 : ¬ (t3 ≤ t1) := by omega
    have h32 : ¬ (t3 ≤ t2) := by omega
    simp [insert_three, save_call, init_db, get_all_calls, sort_ts_desc,
      insert_desc, ts_of, h21, h31, h32]

/-- Witness for C6's amended theorem at concrete timestamps 1 < 2 < 3. -/
theorem get_all_calls_newest_first_witness :
    get_all_calls (insert_three 1 2 3 "a" "sa" "b" "sb" "c" "sc").1 0 100
      = [(insert_three 1 2 3 "a" "sa" "b" "sb" "c" "sc").2.2.2,
         (insert_three 1 2 3 "a" "sa" "b" "sb" "c" "sc").2.2.1,
         (insert_three 1 2 3 "a" "sa" "b" "sb" "c" "sc").2.1] :=
  get_all_calls_newest_first.2 1 2 3 "a" "sa" "b" "sb" "c" "sc"
    (by decide) (by decide)

/-! ### Claim C7 — phone masking -/

/-- Claim C7 as stated is false for the empty string: its length is at
most 4, yet `mask_phone` returns "N/A" rather than the string
unchanged, Python's `if not phone` being true for `""` as well as for
`None`. -/
theorem mask_phone_empty_string_cex :
    mask_phone (some "") = "N/A" ∧ ("N/A" : String) ≠ "" :=
  ⟨rfl, by decide⟩

/-- Claim C7, amended: a `None` phone and the empty string both mask to
"N/A"; a nonempty phone of length at most 4 is returned unchanged; a
longer phone becomes its first 4 characters followed by one `'*'` per
remaining character, preserving the length.  Masking is a pure display
function and never alters the stored value. -/
theorem mask_phone_spec (p : String) :
    (p ≠ "" → p.length ≤ 4 → mask_phone (some p) = p)
    ∧ (4 < p.length →
        (mask_phone (some p)).toList
            = p.toList.take 4 ++ List.replicate (p.length - 4) '*'
          ∧ (mask_phone (some p)).length = p.length)
    ∧ mask_phone none = "N/A"
    ∧ mask_phone (some "") = "N/A" := by
  refine ⟨?_, ?_, rfl, rfl⟩
  · intro hne hle
    have hnz : ¬ (p.length = 0) := fun h => hne (by
      cases p with
      | mk data =>
          cases data with
          | nil => rfl
          | cons a l => simp [String.length] at h)
    simp [mask_phone, hnz, hle]
  · intro hgt
    cases p with
    | mk data =>
        have hlen : String.length { data := data } = data.length := rfl
        rw [hlen] at hgt
        have hnz : ¬ (data.length = 0) := by omega
        have hnle : ¬ (data.length ≤ 4) := by omega
        constructor
        · simp only [mask_phone, hlen, if_neg hnz, if_neg hnle]
          rfl
        · simp only [mask_phone, hlen, if_neg hnz, if_neg hnle,
            show String.toList { data := data } = data from rfl]
          have hstep : ((List.take 4 data).asString
              ++ (List.replicate (data.length - 4) '*').asString).length
              = (List.take 4 data).length + (List.replicate (data.length - 4) '*').length := by
            show (List.take 4 data ++ List.replicate (data.length - 4) '*').length = _
            exact List.length_append _ _
          rw [hstep, List.length_take, List.length_replicate]
          omega

/-- Witness for C7's amended theorem: a short phone is unchanged, a
10-character phone masks with its length preserved, an absent phone
masks to "N/A". -/
theorem mask_phone_spec_witness :
    mask_phone (some "123") = "123"
    ∧ (mask_phone (some "1234567890")).length = "1234567890".length
    ∧ mask_phone none = "N/A" :=
  ⟨(mask_phone_spec "123").1 (by decide) (by decide),
   ((mask_phone_spec "1234567890").2.1 (by decide)).2,
   (mask_phone_spec "1234567890").2.2.1⟩

/-! ### Claim C8 — store round-trip -/

/-- Claim C8, confirmed: saving a record and reading it back by the
returned id yields a record whose seven payload fields equal the
arguments verbatim, with the generated `id` and `timestamp` both
populated (non-null).  The freshness hypothesis states that the
autoincrement id is not already in use, which every store reachable
through `save_call` satisfies. -/
theorem save_call_roundtrip (db : DB) (now : Nat) (tr su : String)
    (cn ph dep : Option String) (pr : String) (resp : Option String)
    (hfresh : ∀ c ∈ db.calls, c.id ≠ some db.next_id) :
    get_call_by_id (save_call db now tr su cn ph dep pr resp).1 db.next_id
        = some (save_call db now tr su cn ph dep pr resp).2
      ∧ (save_call db now tr su cn ph dep pr resp).2.caller_name = cn
      ∧ (save_call db now tr su cn ph dep pr resp).2.phone = ph
      ∧ (save_call db now tr su cn ph dep pr resp).2.department = dep
      ∧ (save_call db now tr su cn ph dep pr resp).2.priority = pr
      ∧ (save_call db now tr su cn ph dep pr resp).2.summary = su
      ∧ (save_call db now tr su cn ph dep pr resp).2.transcript = tr
      ∧ (save_call db now tr su cn ph dep pr resp).2.response = resp
      ∧ (save_call db now tr su cn ph dep pr resp).2.id = some db.next_id
      ∧ (save_call db now tr su cn ph dep pr resp).2.timestamp = some now := by
  refine ⟨?_, rfl, rfl, rfl, rfl, rfl, rfl, rfl, rfl, rfl⟩
  have hskip : ∀ c ∈ db.calls, (c.id == some db.next_id) = false := by
    intro c hc
    exact beq_eq_false_iff_ne.mpr (hfresh c hc)
  show find_first (fun c => c.id == some db.next_id)
      (db.calls ++ [(save_call db now tr su cn ph dep pr resp).2]) = _
  rw [find_first_append_of_none _ db.calls _ hskip]
  simp [find_first, save_call]

/-- Witness for C8 on an empty store. -/
theorem save_call_roundtrip_witness :
    get_call_by_id
        (save_call init_db 7 "the transcript" "the summary"
          (some "Bob") (some "5551234") (some "Sales") "High" (some "reply")).1
        init_db.next_id
      = some (save_call init_db 7 "the transcript" "the summary"
          (some "Bob") (some "5551234") (some "Sales") "High" (some "reply")).2 :=
  (save_call_roundtrip init_db 7 "the transcript" "the summary"
    (some "Bob") (some "5551234") (some "Sales") "High" (some "reply")
    (by simp [init_db])).1

/-! ### Claim C9 — empty summary is rejected before the store -/

/-- Claim C9, confirmed: submitting the save form with an empty summary
is rejected with the user-facing message "Please enter a summary"; the
database is returned unchanged and no record is persisted — `save_call`
is never reached. -/
theorem empty_summary_rejected (db : DB) (now : Nat)
    (tr su cn ph dep pr resp : String) (h : su = "") :
    process_save db now tr su cn ph dep pr resp
      = { db := db, saved := none, error := some "Please enter a summary" } := by
  subst h
  simp [process_save]

/-- Witness for C9 at a concrete submission with empty summary. -/
theorem empty_summary_rejected_witness :
    process_save init_db 3 "some transcript" "" "Alice" "555" "Support" "Low" "reply"
      = { db := init_db, saved := none, error := some "Please enter a summary" } :=
  empty_summary_rejected init_db 3 "some transcript" "" "Alice" "555" "Support" "Low"
    "reply" rfl

/-! ### Claim C10 — the store itself validates nothing -/

/-- Claim C10, confirmed: `save_call` persists its arguments exactly as
given for every combination of values — including an empty `summary`
and a `priority` outside {Low, Medium, High} — so the non-empty-summary
and closed-priority invariants rest solely on the presentation layer. -/
theorem save_call_no_validation (db : DB) (now : Nat) (tr su : String)
    (cn ph dep : Option String) (pr : String) (resp : Option String) :
    (save_call db now tr su cn ph dep pr resp).2.transcript = tr
    ∧ (save_call db now tr su cn ph dep pr resp).2.summary = su
    ∧ (save_call db now tr su cn ph dep pr resp).2.caller_name = cn
    ∧ (save_call db now tr su cn ph dep pr resp).2.phone = ph
    ∧ (save_call db now tr su cn ph dep pr resp).2.department = dep
    ∧ (save_call db now tr su cn ph dep pr resp).2.priority = pr
    ∧ (save_call db now tr su cn ph dep pr resp).2.response = resp
    ∧ (save_call db now tr su cn ph dep pr resp).1.calls
        = db.calls ++ [(save_call db now tr su cn ph dep pr resp).2] :=
  ⟨rfl, rfl, rfl, rfl, rfl, rfl, rfl, rfl⟩
